import Mathlib

/-!
Verification of the `classyfire` Python client library against its
natural-language specification.

The development shallowly embeds the repository's code:

* `src/classyfire/utils/normalize_inchikey.py` and
  `src/classyfire/utils/validate_inchikey.py` (identifier validator),
* `src/classyfire/classification.py` (the `ChemontNode`, `ExternalDescriptor`
  and `Compound` dataclasses with `to_dict` / `from_dict`),
* `src/classyfire/classyfire.py` (the cached, rate-limited single-identifier
  requester `_classify_inchikey` / `classify_inchikey` and the batch
  generator `classify_inchikeys`).

Python dynamic values are modelled by the JSON value type `Jv`; Python
exceptions become an explicit error type `CfError` carried in `Except`.
Wall-clock time, the HTTP transport and the on-disk cache are modelled as
explicit parameters and state, and externally visible effects (cache
lookups, rate-limit sleeps, HTTP requests, warnings, cache writes) are
recorded in an event trace.
-/

namespace Classyfire

/-! ## Identifier validator

`normalize_inchikey` (normalize_inchikey.py line 9) is
`inchikey.replace("InChIKey=", "")`.  Python's `str.replace` removes every
left-to-right non-overlapping occurrence of the pattern, not only a leading
prefix; `replaceAll` reproduces that scan.
-/

/-- Worker for `replaceAll`.  While `skip > 0` the scanner is inside a
matched occurrence and drops characters; at `skip = 0` it tests whether the
pattern starts at the current position and either begins consuming it or
emits the current character. -/
def replaceAllAux (pat : List Char) (skip : Nat) : List Char → List Char
  | [] => []
  | c :: rest =>
    match skip with
    | n + 1 => replaceAllAux pat n rest
    | 0 =>
      if pat ≠ [] ∧ pat.isPrefixOf (c :: rest) then
        replaceAllAux pat (pat.length - 1) rest
      else
        c :: replaceAllAux pat 0 rest

/-- Left-to-right, non-overlapping removal of every occurrence of `pat`,
as performed by Python's `str.replace(pat, "")` for a non-empty `pat`. -/
def replaceAll (pat : List Char) (l : List Char) : List Char :=
  replaceAllAux pat 0 l

/-- The pattern removed by `normalize_inchikey`. -/
def inchikeyTag : List Char := "InChIKey=".data

/-- `normalize_inchikey` (normalize_inchikey.py lines 7-9):
`inchikey.replace("InChIKey=", "")`. -/
def normalize_inchikey (s : String) : String :=
  ⟨replaceAll inchikeyTag s.data⟩

/-- Whether `pat` occurs as a contiguous sublist of `l`. -/
def containsPat (pat : List Char) (l : List Char) : Bool :=
  match l with
  | [] => pat.isPrefixOf ([] : List Char)
  | _ :: rest => pat.isPrefixOf l || containsPat pat rest

/-- ASCII uppercase letter, the character class `[A-Z]` of the validator's
regular expression. -/
def isUpperAZ (c : Char) : Bool :=
  'A' ≤ c && c ≤ 'Z'

/-- Consume exactly `n` uppercase letters from the front of `l`, returning
the remainder; `none` when fewer than `n` uppercase letters lead `l`.
Implements the `[A-Z]{n}` pieces of the validator's regular expression. -/
def takeUppers (n : Nat) (l : List Char) : Option (List Char) :=
  match n, l with
  | 0, l => some l
  | _ + 1, [] => none
  | n + 1, c :: rest => if isUpperAZ c then takeUppers n rest else none

/-- The core of the pattern `^[A-Z]{14}\-[A-Z]{10}(\-[A-Z])$` from
validate_inchikey.py line 12: 14 uppercase letters, a hyphen, 10 uppercase
letters, a hyphen, one uppercase letter, end of input. -/
def matchCore (l : List Char) : Bool :=
  match takeUppers 14 l with
  | some ('-' :: r1) =>
    match takeUppers 10 r1 with
    | some ('-' :: r2) =>
      match takeUppers 1 r2 with
      | some [] => true
      | _ => false
    | _ => false
  | _ => false

/-- Python `re.match` of the anchored pattern: `$` matches at the end of the
string or just before one final newline, so the regex accepts the core
pattern optionally followed by a single trailing `'\n'`. -/
def matchInchikeyRegex (l : List Char) : Bool :=
  matchCore l || (l.getLast? == some '\n' && matchCore l.dropLast)

/-- `is_valid_inchikey` (validate_inchikey.py lines 9-13):
`bool(re.match(r"^[A-Z]{14}\-[A-Z]{10}(\-[A-Z])$", normalize_inchikey(inchikey)))`. -/
def is_valid_inchikey (s : String) : Bool :=
  matchInchikeyRegex (normalize_inchikey s).data

/-! Declarative forms used to state the claims about the validator. -/

/-- Declarative 14-10-1 letter/hyphen pattern, as the specification words it:
14 uppercase letters, a hyphen, 10 uppercase letters, a hyphen, and one
uppercase letter. -/
def IsInchikeyPattern (l : List Char) : Prop :=
  ∃ a b c, l = a ++ '-' :: (b ++ '-' :: [c]) ∧
    a.length = 14 ∧ b.length = 10 ∧
    (∀ x ∈ a, isUpperAZ x = true) ∧ (∀ x ∈ b, isUpperAZ x = true) ∧
    isUpperAZ c = true

/-- The claim-side normalization: strip one leading `"InChIKey="` from `s`
if present, identity otherwise (the specification's description of
`normalize_inchikey`). -/
def stripLeadingTag (s : String) : String :=
  if inchikeyTag.isPrefixOf s.data then ⟨s.data.drop inchikeyTag.length⟩ else s

/-! ## JSON values

Python dictionaries parsed from the service's JSON responses are modelled
by `Jv`; objects are association lists (Python dictionaries have unique
keys, looked up by string). -/

/-- A JSON value as produced by `response.json()`. -/
inductive Jv
  | null
  | bool (b : Bool)
  | num (n : Int)
  | str (s : String)
  | arr (elems : List Jv)
  | obj (fields : List (String × Jv))

/-- Python truthiness of a JSON value: the `if not response:` test of
classyfire.py line 144 succeeds exactly on these falsy values. -/
def Jv.falsy : Jv → Bool
  | .null => true
  | .bool b => !b
  | .num n => n == 0
  | .str s => s.isEmpty
  | .arr elems => elems.isEmpty
  | .obj fields => fields.isEmpty

/-! ## Errors

The exception classes of `src/classyfire/exceptions.py`, plus the builtin
Python exceptions (`ValueError`, `KeyError`, `TypeError`) that the modelled
code can raise. -/

/-- Exceptions raised by the modelled code. -/
inductive CfError
  | invalidInchiKey (inchikey : String)
  | classyFireAPIRequestError (message : String)
  | emptyInchikeyClassification (inchikey : String)
  | emptySMILESClassification (smiles : String)
  | valueError (message : String)
  | keyError (key : String)
  | typeError (message : String)
deriving DecidableEq

/-! ## Compound model (`src/classyfire/classification.py`)

The dataclass fields are modelled at their declared types; `from_dict`
checks that the raw JSON has the corresponding shape and fails with the
Python exception the dynamic code would raise (`ValueError` for a missing
`inchikey`, `KeyError` for other missing keys, `TypeError` for shape
mismatches such as unexpected keyword arguments). -/

/-- `ChemontNode` dataclass (classification.py lines 16-32). -/
structure ChemontNode where
  name : String
  description : String
  chemont_id : String
  url : String
deriving DecidableEq

/-- `ChemontNode.to_dict` (classification.py lines 25-32). -/
def ChemontNode.to_dict (n : ChemontNode) : Jv :=
  .obj [("name", .str n.name), ("description", .str n.description),
        ("chemont_id", .str n.chemont_id), ("url", .str n.url)]

/-- `ExternalDescriptor` dataclass (classification.py lines 35-49). -/
structure ExternalDescriptor where
  source : String
  source_id : String
  annotations : List String
deriving DecidableEq

/-- `ExternalDescriptor.to_dict` (classification.py lines 43-49). -/
def ExternalDescriptor.to_dict (d : ExternalDescriptor) : Jv :=
  .obj [("source", .str d.source), ("source_id", .str d.source_id),
        ("annotations", .arr (d.annotations.map Jv.str))]

/-- `Compound` dataclass (classification.py lines 52-72); `class` is named
`klass` as a Lean-side identifier. -/
structure Compound where
  smiles : String
  inchikey : String
  kingdom : ChemontNode
  superclass : ChemontNode
  klass : Option ChemontNode
  subclass : Option ChemontNode
  intermediate_nodes : List ChemontNode
  direct_parent : ChemontNode
  alternative_parents : List ChemontNode
  molecular_framework : String
  substituents : List String
  description : String
  external_descriptors : List ExternalDescriptor
  ancestors : List String
  predicted_chebi_terms : List String
  predicted_lipidmaps_terms : List String
  classification_version : String
deriving DecidableEq

/-- Serialization of an optional node: `node.to_dict() if node else None`
(classification.py lines 120-121). -/
def optNodeToJv : Option ChemontNode → Jv
  | some n => n.to_dict
  | none => .null

/-- `Compound.to_dict` (classification.py lines 113-137). -/
def Compound.to_dict (c : Compound) : Jv :=
  .obj [("smiles", .str c.smiles),
        ("inchikey", .str c.inchikey),
        ("kingdom", c.kingdom.to_dict),
        ("superclass", c.superclass.to_dict),
        ("class", optNodeToJv c.klass),
        ("subclass", optNodeToJv c.subclass),
        ("intermediate_nodes", .arr (c.intermediate_nodes.map ChemontNode.to_dict)),
        ("direct_parent", c.direct_parent.to_dict),
        ("alternative_parents", .arr (c.alternative_parents.map ChemontNode.to_dict)),
        ("molecular_framework", .str c.molecular_framework),
        ("substituents", .arr (c.substituents.map Jv.str)),
        ("description", .str c.description),
        ("external_descriptors", .arr (c.external_descriptors.map ExternalDescriptor.to_dict)),
        ("ancestors", .arr (c.ancestors.map Jv.str)),
        ("predicted_chebi_terms", .arr (c.predicted_chebi_terms.map Jv.str)),
        ("predicted_lipidmaps_terms", .arr (c.predicted_lipidmaps_terms.map Jv.str)),
        ("classification_version", .str c.classification_version)]

/-- `data[k]`: dictionary subscription, raising `KeyError` on a missing
key. -/
def lookupKey (fields : List (String × Jv)) (k : String) : Except CfError Jv :=
  match fields.lookup k with
  | some v => .ok v
  | none => .error (.keyError k)

/-- A value used where the dataclass declares `str`. -/
def asStr : Jv → Except CfError String
  | .str s => .ok s
  | _ => .error (.typeError "expected a str")

/-- A Python list comprehension `[f(x) for x in xs]`: elements are
converted in order and the first exception propagates. -/
def exceptMapM {a b : Type} (f : a → Except CfError b) : List a → Except CfError (List b)
  | [] => .ok []
  | x :: xs => do
    let y ← f x
    let ys ← exceptMapM f xs
    return y :: ys

/-- A value used where the dataclass declares `List[str]`. -/
def asStrList : Jv → Except CfError (List String)
  | .arr elems => exceptMapM asStr elems
  | _ => .error (.typeError "expected a list of str")

/-- Whether keyword arguments `fields` (a dict with unique keys) bind
exactly the parameter names `ks`; Python raises `TypeError` on a missing
or unexpected keyword argument. -/
def kwargsKeysMatch (fields : List (String × Jv)) (ks : List String) : Bool :=
  ks.all (fun k => (fields.lookup k).isSome) && fields.all (fun p => ks.contains p.1)

/-- `ChemontNode(**data[...])` (classification.py lines 86-99): keyword
construction from a dict with exactly the four node keys. -/
def ChemontNode.from_kwargs : Jv → Except CfError ChemontNode
  | .obj fields =>
    if kwargsKeysMatch fields ["name", "description", "chemont_id", "url"] then do
      let name ← lookupKey fields "name" >>= asStr
      let description ← lookupKey fields "description" >>= asStr
      let chemont_id ← lookupKey fields "chemont_id" >>= asStr
      let url ← lookupKey fields "url" >>= asStr
      return { name, description, chemont_id, url }
    else
      .error (.typeError "unexpected or missing keyword arguments for ChemontNode")
  | _ => .error (.typeError "ChemontNode keyword arguments must be a mapping")

/-- `ExternalDescriptor(**desc)` (classification.py lines 104-106). -/
def ExternalDescriptor.from_kwargs : Jv → Except CfError ExternalDescriptor
  | .obj fields =>
    if kwargsKeysMatch fields ["source", "source_id", "annotations"] then do
      let source ← lookupKey fields "source" >>= asStr
      let source_id ← lookupKey fields "source_id" >>= asStr
      let annotations ← lookupKey fields "annotations" >>= asStrList
      return { source, source_id, annotations }
    else
      .error (.typeError "unexpected or missing keyword arguments for ExternalDescriptor")
  | _ => .error (.typeError "ExternalDescriptor keyword arguments must be a mapping")

/-- `ChemontNode(**v) if v is not None else None` (classification.py
lines 88-93). -/
def optNodeFromJv (v : Jv) : Except CfError (Option ChemontNode) :=
  match v with
  | .null => .ok none
  | v => (ChemontNode.from_kwargs v).map some

/-- A list of node dicts (classification.py lines 94-100). -/
def asNodeList : Jv → Except CfError (List ChemontNode)
  | .arr elems => exceptMapM ChemontNode.from_kwargs elems
  | _ => .error (.typeError "expected a list of node dicts")

/-- A list of external-descriptor dicts (classification.py lines 104-106). -/
def asDescList : Jv → Except CfError (List ExternalDescriptor)
  | .arr elems => exceptMapM ExternalDescriptor.from_kwargs elems
  | _ => .error (.typeError "expected a list of descriptor dicts")

/-- `Compound.from_dict` (classification.py lines 74-111): `ValueError`
when the `inchikey` key is absent, otherwise keyword construction reading
the keys in source order. -/
def Compound.from_dict : Jv → Except CfError Compound
  | .obj fields =>
    if (fields.lookup "inchikey").isNone then
      .error (.valueError "InChIKey is required to create a Compound object")
    else do
      let smiles ← lookupKey fields "smiles" >>= asStr
      let inchikey ← lookupKey fields "inchikey" >>= asStr
      let kingdom ← lookupKey fields "kingdom" >>= ChemontNode.from_kwargs
      let superclass ← lookupKey fields "superclass" >>= ChemontNode.from_kwargs
      let klass ← lookupKey fields "class" >>= optNodeFromJv
      let subclass ← lookupKey fields "subclass" >>= optNodeFromJv
      let intermediate_nodes ← lookupKey fields "intermediate_nodes" >>= asNodeList
      let direct_parent ← lookupKey fields "direct_parent" >>= ChemontNode.from_kwargs
      let alternative_parents ← lookupKey fields "alternative_parents" >>= asNodeList
      let molecular_framework ← lookupKey fields "molecular_framework" >>= asStr
      let substituents ← lookupKey fields "substituents" >>= asStrList
      let description ← lookupKey fields "description" >>= asStr
      let external_descriptors ← lookupKey fields "external_descriptors" >>= asDescList
      let ancestors ← lookupKey fields "ancestors" >>= asStrList
      let predicted_chebi_terms ← lookupKey fields "predicted_chebi_terms" >>= asStrList
      let predicted_lipidmaps_terms ← lookupKey fields "predicted_lipidmaps_terms" >>= asStrList
      let classification_version ← lookupKey fields "classification_version" >>= asStr
      return { smiles, inchikey, kingdom, superclass, klass, subclass,
               intermediate_nodes, direct_parent, alternative_parents,
               molecular_framework, substituents, description,
               external_descriptors, ancestors, predicted_chebi_terms,
               predicted_lipidmaps_terms, classification_version }
  | _ => .error (.typeError "from_dict expects a mapping")

/-! ## Classification requester (`src/classyfire/classyfire.py`)

`_classify_inchikey` is wrapped by the `@Cache` decorator
(`cache_path="{cache_dir}/{inchikey}.json"`), which looks the raw argument
up in the on-disk cache before the wrapped body runs and persists the
returned value afterwards.  The wrapped body sleeps off the rate limit,
updates `_last_request_time`, validates via `build_url`, performs the HTTP
GET and applies the empty-classification policy.  Wall-clock time is the
explicit parameter `now`; the transport is a function from URL to
`HttpResult`; externally visible effects are recorded in an `Ev` trace. -/

/-- Externally visible effects of a classification request, in order. -/
inductive Ev
  | cacheCheck (key : String) (hit : Bool)
  | rateLimitSleep (duration : Int)
  | httpGet (url : String)
  | warning (message : String)
  | cacheWrite (key : String)
deriving DecidableEq

/-- Outcome of the HTTP GET at the transport boundary:
a JSON body, a non-2xx status (raised by `raise_for_status` as
`requests.exceptions.HTTPError`), or a transport failure
(`requests.exceptions.RequestException`). -/
inductive HttpResult
  | success (body : Jv)
  | httpError (statusCode : Nat)
  | transportFailure

/-- The constructor arguments of `ClassyFire.__init__` that the modelled
claims depend on. -/
structure Config where
  sleep : Int
  behaviorOnEmptyClassification : String
  classificationAttempts : Nat

/-- Mutable client state: the on-disk result cache (one raw JSON document
per InChIKey argument) and `_last_request_time`. -/
structure CState where
  cache : List (String × Jv)
  lastRequestTime : Int

/-- `ClassyFire.URL` (classyfire.py line 45). -/
def baseUrl : String := "http://classyfire.wishartlab.com"

/-- The URL string built for a (already replaced) InChIKey
(classyfire.py line 115). -/
def entityUrl (inchikey : String) : String :=
  baseUrl ++ "/entities/" ++ inchikey ++ ".json"

/-- `ClassyFire.build_url` (classyfire.py lines 104-115): replace
`"InChIKey="`, validate, raise `InvalidInchiKey` on failure. -/
def build_url (inchikey : String) : Except CfError String :=
  let ik := normalize_inchikey inchikey
  if ¬ is_valid_inchikey ik then
    .error (.invalidInchiKey ik)
  else
    .ok (entityUrl ik)

/-- The `@typechecked` return annotation `-> Dict` of `_classify_inchikey`
together with the `@Cache` decorator's persistence: a dict return value is
stored in the cache and returned; any other return value raises a
`TypeError` at the decorated boundary (and nothing is cached). -/
def returnAndPersist (st : CState) (evs : List Ev) (inchikey : String) (body : Jv) :
    Except CfError Jv × CState × List Ev :=
  match body with
  | .obj fields =>
    (.ok (.obj fields), { st with cache := st.cache ++ [(inchikey, .obj fields)] },
      evs ++ [.cacheWrite inchikey])
  | _ => (.error (.typeError "return value is not a Dict"), st, evs)

/-- The trace of a cache miss up to and including the rate-limit sleep of
duration `max(0, sleep - (now - last_request_time))` (classyfire.py
lines 125-131). -/
def missPrefixEvents (cfg : Config) (now : Int) (st : CState) (inchikey : String) :
    List Ev :=
  [.cacheCheck inchikey false,
   .rateLimitSleep (max 0 (cfg.sleep - (now - st.lastRequestTime)))]

/-- `ClassyFire._classify_inchikey` (classyfire.py lines 117-167) together
with its `@Cache` decorator: cache consultation first; on a miss, the
rate-limit sleep, the `_last_request_time` update (to `now`), `build_url`
validation, the HTTP GET, error translation and the empty-classification
policy of lines 144-156, and finally persistence of the returned dict. -/
def classify_inchikey_raw (cfg : Config) (transport : String → HttpResult)
    (now : Int) (st : CState) (inchikey : String) :
    Except CfError Jv × CState × List Ev :=
  match st.cache.lookup inchikey with
  | some v => (.ok v, st, [.cacheCheck inchikey true])
  | none =>
    match build_url inchikey with
    | .error e =>
      (.error e, { st with lastRequestTime := now }, missPrefixEvents cfg now st inchikey)
    | .ok url =>
      match transport url with
      | .httpError code =>
        (.error (.classyFireAPIRequestError
          ("Classification request for InChIKey failed with status code " ++ toString code)),
          { st with lastRequestTime := now },
          missPrefixEvents cfg now st inchikey ++ [.httpGet url])
      | .transportFailure =>
        (.error (.classyFireAPIRequestError "Classification request for InChIKey failed"),
          { st with lastRequestTime := now },
          missPrefixEvents cfg now st inchikey ++ [.httpGet url])
      | .success body =>
        if body.falsy then
          if cfg.behaviorOnEmptyClassification == "warn" then
            returnAndPersist { st with lastRequestTime := now }
              (missPrefixEvents cfg now st inchikey ++ [.httpGet url] ++
                [.warning ("Empty classification for InChIKey: " ++ inchikey)])
              inchikey body
          else if cfg.behaviorOnEmptyClassification == "ignore" then
            returnAndPersist { st with lastRequestTime := now }
              (missPrefixEvents cfg now st inchikey ++ [.httpGet url]) inchikey body
          else if cfg.behaviorOnEmptyClassification == "retry-last" then
            (.error (.emptyInchikeyClassification inchikey),
              { st with lastRequestTime := now },
              missPrefixEvents cfg now st inchikey ++ [.httpGet url] ++
                [.warning ("Empty classification for InChIKey: " ++ inchikey ++
                  ". Will retry classification at the end of the classification process.")])
          else if cfg.behaviorOnEmptyClassification == "raise" then
            (.error (.emptyInchikeyClassification inchikey),
              { st with lastRequestTime := now },
              missPrefixEvents cfg now st inchikey ++ [.httpGet url])
          else
            returnAndPersist { st with lastRequestTime := now }
              (missPrefixEvents cfg now st inchikey ++ [.httpGet url]) inchikey body
        else
          returnAndPersist { st with lastRequestTime := now }
            (missPrefixEvents cfg now st inchikey ++ [.httpGet url]) inchikey body

/-- `ClassyFire.classify_inchikey` (classyfire.py lines 169-180):
`Compound.from_dict(self._classify_inchikey(inchikey))`. -/
def classify_inchikey (cfg : Config) (transport : String → HttpResult)
    (now : Int) (st : CState) (inchikey : String) :
    Except CfError Compound × CState × List Ev :=
  match classify_inchikey_raw cfg transport now st inchikey with
  | (.error e, st1, evs) => (.error e, st1, evs)
  | (.ok v, st1, evs) =>
    match Compound.from_dict v with
    | .error e => (.error e, st1, evs)
    | .ok c => (.ok c, st1, evs)

/-! ## Batch orchestrator (`ClassyFire.classify_inchikeys`,
classyfire.py lines 201-243)

The per-item call `self.classify_inchikey(inchikey)` is abstracted by an
oracle giving the outcome of classifying an identifier during a given
round (round `0` is the first pass; retry rounds count from `1`), so that
the orchestration claims hold for every behavior of the single-item
requester.  A generator run is modelled as the list of yielded compounds
together with the error that terminated it, if any. -/

/-- Outcome of `self.classify_inchikey` for an identifier, per round. -/
abbrev ClassifyOracle := Nat → String → Except CfError Compound

/-- Whether an exception is caught by `except EmptyInchikeyClassification`. -/
def isEmptyClassification : CfError → Bool
  | .emptyInchikeyClassification _ => true
  | _ => false

/-- First pass of `classify_inchikeys` (classyfire.py lines 211-227):
iterate the input, yield successes, append empty-classification failures to
`to_retry` as `(inchikey, 1)` under `"retry-last"`, re-raise any other
failure.  Returns the yielded compounds and either the final `to_retry`
queue or the propagated error. -/
def firstPassAux (classify : ClassifyOracle) (policy : String) :
    List String → List (String × Nat) → List Compound × (List (String × Nat) ⊕ CfError)
  | [], toRetry => ([], .inl toRetry)
  | k :: rest, toRetry =>
    match classify 0 k with
    | .ok c =>
      let r := firstPassAux classify policy rest toRetry
      (c :: r.1, r.2)
    | .error e =>
      if isEmptyClassification e then
        if policy == "retry-last" then
          firstPassAux classify policy rest (toRetry ++ [(k, 1)])
        else
          ([], .inr e)
      else
        ([], .inr e)

/-- One round of the retry loop (classyfire.py lines 234-243): iterate the
current `to_retry`, yield successes, requeue empty-classification failures
as `(inchikey, attempt + 1)` while `attempt < classification_attempts`,
re-raise otherwise (and re-raise any non-empty-classification failure). -/
def retryRound (classify : ClassifyOracle) (attempts : Nat) (round : Nat) :
    List (String × Nat) → List (String × Nat) → List Compound × (List (String × Nat) ⊕ CfError)
  | [], newToRetry => ([], .inl newToRetry)
  | (k, attempt) :: rest, newToRetry =>
    match classify round k with
    | .ok c =>
      let r := retryRound classify attempts round rest newToRetry
      (c :: r.1, r.2)
    | .error e =>
      if isEmptyClassification e then
        if attempt < attempts then
          retryRound classify attempts round rest (newToRetry ++ [(k, attempt + 1)])
        else
          ([], .inr e)
      else
        ([], .inr e)

/-- The `while to_retry:` loop (classyfire.py lines 230-243), run with
explicit fuel bounding the number of rounds; `none` means the fuel was
exhausted with the queue still non-empty.  The termination theorem shows
that fuel `classification_attempts + 1` always suffices. -/
def retryLoopFuel (classify : ClassifyOracle) (attempts : Nat) :
    Nat → Nat → List (String × Nat) → Option (List Compound × Option CfError)
  | _, _, [] => some ([], none)
  | 0, _, _ :: _ => none
  | fuel + 1, round, q =>
    match retryRound classify attempts round q [] with
    | (ys, .inr e) => some (ys, some e)
    | (ys, .inl q1) =>
      match retryLoopFuel classify attempts fuel (round + 1) q1 with
      | none => none
      | some (ys1, e) => some (ys ++ ys1, e)

/-- `ClassyFire.classify_inchikeys` (classyfire.py lines 201-243): the
first pass followed, under `"retry-last"`, by the retry loop.  The run of
the generator is the list of yielded compounds paired with the error that
ended it, if any. -/
def classify_inchikeys (classify : ClassifyOracle) (cfg : Config)
    (inchikeys : List String) : Option (List Compound × Option CfError) :=
  match firstPassAux classify cfg.behaviorOnEmptyClassification inchikeys [] with
  | (ys, .inr e) => some (ys, some e)
  | (ys, .inl toRetry) =>
    if cfg.behaviorOnEmptyClassification == "retry-last" then
      match retryLoopFuel classify cfg.classificationAttempts
          (cfg.classificationAttempts + 1) 1 toRetry with
      | none => none
      | some (ys1, e) => some (ys ++ ys1, e)
    else
      some (ys, none)

/-! Specification-side description of the first pass, for the refinement
claim: process the input in order up to (but excluding) the first item
whose failure is fatal — any failure at all except an
empty-classification failure under `"retry-last"` — yielding every
success immediately and deferring every (non-fatal) failure with
`attempt = 1`; a fatal failure propagates its error. -/

/-- Whether classifying `k` in the first pass fails fatally. -/
def fatalOutcome (classify : ClassifyOracle) (policy : String) (k : String) : Bool :=
  match classify 0 k with
  | .ok _ => false
  | .error e => !(isEmptyClassification e && policy == "retry-last")

/-- The successes among `items`, in input order. -/
def firstPassYields (classify : ClassifyOracle) (items : List String) : List Compound :=
  items.filterMap (fun k => (classify 0 k).toOption)

/-- The deferred queue built from `items`: each failing item paired with
`attempt = 1`, in input order. -/
def firstPassDeferred (classify : ClassifyOracle) (items : List String) :
    List (String × Nat) :=
  items.filterMap (fun k =>
    match classify 0 k with
    | .error _ => some (k, 1)
    | .ok _ => none)

/-- The first pass as the specification words it. -/
def firstPassSpec (classify : ClassifyOracle) (policy : String) (items : List String) :
    List Compound × (List (String × Nat) ⊕ CfError) :=
  let keep : String → Bool := fun k => !(fatalOutcome classify policy k)
  let processed := items.takeWhile keep
  ( firstPassYields classify processed,
    match (items.dropWhile keep).head? with
    | none => .inl (firstPassDeferred classify processed)
    | some k =>
      match classify 0 k with
      | .error e => .inr e
      | .ok _ => .inl [] )

/-! Trace observations and concrete sample data used by the witnesses. -/

/-- Number of HTTP requests recorded in a trace. -/
def countHttp (evs : List Ev) : Nat :=
  (evs.filter (fun e => match e with | .httpGet _ => true | _ => false)).length

/-- No outbound network activity in a trace: neither an HTTP request nor a
rate-limit sleep. -/
def noNetworkEvents (evs : List Ev) : Prop :=
  ∀ e ∈ evs, (∀ u, e ≠ Ev.httpGet u) ∧ (∀ d, e ≠ Ev.rateLimitSleep d)

/-- A concrete taxonomy node. -/
def sampleNode : ChemontNode :=
  { name := "Organic compounds"
    description := "Compounds that contain carbon"
    chemont_id := "CHEMONTID:0000000"
    url := "http://classyfire.wishartlab.com/tax_nodes/C0000000" }

/-- A concrete compound classification for an identifier. -/
def sampleCompound (inchikey : String) : Compound :=
  { smiles := "CC(=O)OC1=CC=CC=C1C(O)=O"
    inchikey := inchikey
    kingdom := sampleNode
    superclass := sampleNode
    klass := none
    subclass := none
    intermediate_nodes := []
    direct_parent := sampleNode
    alternative_parents := []
    molecular_framework := "Aromatic homomonocyclic compounds"
    substituents := []
    description := ""
    external_descriptors := []
    ancestors := []
    predicted_chebi_terms := []
    predicted_lipidmaps_terms := []
    classification_version := "2.1" }

/-- A batch oracle in which one identifier empty-classifies in every round
and every other identifier classifies successfully. -/
def sampleOracle : ClassifyOracle := fun _ k =>
  if k = "BBBBBBBBBBBBBB-BBBBBBBBBB-B" then
    .error (.emptyInchikeyClassification k)
  else
    .ok (sampleCompound k)

/-! # Theorems -/

/-! ## Generic reduction helpers -/

/-- `Except` bind on a success reduces to the continuation. -/
@[simp] theorem ok_bind {a b : Type} (x : a) (f : a → Except CfError b) :
    (Except.ok x >>= f) = f x := rfl

/-- `Except` map on a success reduces to the mapped success. -/
@[simp] theorem map_ok {a b : Type} (f : a → b) (x : a) :
    (f <$> (Except.ok x : Except CfError a)) = Except.ok (f x) := rfl

/-- Appending a binding for a key that is absent makes it found. -/
theorem lookup_append_of_none {v : Jv} (cache : List (String × Jv)) (k : String)
    (h : cache.lookup k = none) : (cache ++ [(k, v)]).lookup k = some v := by
  induction cache with
  | nil => simp [List.lookup]
  | cons p rest ih =>
    rw [List.cons_append, List.lookup_cons]
    rw [List.lookup_cons] at h
    match hk : (k == p.1) with
    | true => rw [hk] at h; exact absurd h (by simp)
    | false => rw [hk] at h; exact ih h

/-! ## Identifier validator -/

/-- `takeUppers n` succeeds with remainder `r` exactly when the input is
`n` uppercase letters followed by `r`. -/
theorem takeUppers_eq_some_iff (n : Nat) (l r : List Char) :
    takeUppers n l = some r ↔
      ∃ a, l = a ++ r ∧ a.length = n ∧ ∀ x ∈ a, isUpperAZ x = true := by
  induction n generalizing l with
  | zero =>
    simp only [takeUppers, Option.some.injEq]
    constructor
    · rintro rfl
      exact ⟨[], rfl, rfl, by simp⟩
    · rintro ⟨a, rfl, ha, _⟩
      rw [List.length_eq_zero] at ha
      subst ha
      rfl
  | succ n ih =>
    cases l with
    | nil =>
      simp only [takeUppers]
      constructor
      · intro h
        exact absurd h (by simp)
      · rintro ⟨a, ha, hlen, _⟩
        have : a = [] := by
          cases a with
          | nil => rfl
          | cons x xs => simp at ha
        subst this
        simp at hlen
    | cons c rest =>
      simp only [takeUppers]
      by_cases hc : isUpperAZ c = true
      · rw [if_pos hc, ih]
        constructor
        · rintro ⟨a, rfl, hlen, hup⟩
          exact ⟨c :: a, rfl, by simp [hlen], by
            intro x hx
            rcases List.mem_cons.mp hx with rfl | hx
            · exact hc
            · exact hup x hx⟩
        · rintro ⟨a, ha, hlen, hup⟩
          cases a with
          | nil => simp at hlen
          | cons y ys =>
            obtain ⟨rfl, hrest⟩ : c = y ∧ rest = ys ++ r := by
              simpa using ha
            exact ⟨ys, hrest, by simpa using hlen,
              fun x hx => hup x (List.mem_cons_of_mem _ hx)⟩
      · rw [if_neg hc]
        constructor
        · intro h
          exact absurd h (by simp)
        · rintro ⟨a, ha, hlen, hup⟩
          cases a with
          | nil => simp at hlen
          | cons y ys =>
            obtain ⟨rfl, -⟩ : c = y ∧ rest = ys ++ r := by simpa using ha
            exact absurd (hup c (by simp)) hc

/-- The regex core accepts exactly the declarative 14-10-1 pattern. -/
theorem matchCore_iff (l : List Char) :
    matchCore l = true ↔ IsInchikeyPattern l := by
  constructor
  · intro h
    unfold matchCore at h
    split at h
    case _ r1 h14 =>
      split at h
      case _ r2 h10 =>
        split at h
        case _ h1 =>
          obtain ⟨a, rfl, ha, haup⟩ := (takeUppers_eq_some_iff _ _ _).mp h14
          obtain ⟨b, rfl, hb, hbup⟩ := (takeUppers_eq_some_iff _ _ _).mp h10
          obtain ⟨cs, rfl, hcs, hcsup⟩ := (takeUppers_eq_some_iff _ _ _).mp h1
          obtain ⟨c, rfl⟩ : ∃ c, cs = [c] := by
            cases cs with
            | nil => simp at hcs
            | cons x xs =>
              cases xs with
              | nil => exact ⟨x, rfl⟩
              | cons y ys => simp at hcs
          exact ⟨a, b, c, by simp, ha, hb, haup, hbup, hcsup c (by simp)⟩
        case _ => exact absurd h (by simp)
      case _ => exact absurd h (by simp)
    case _ => exact absurd h (by simp)
  · rintro ⟨a, b, c, rfl, ha, hb, haup, hbup, hcup⟩
    have h14 : takeUppers 14 (a ++ '-' :: (b ++ '-' :: [c])) =
        some ('-' :: (b ++ '-' :: [c])) :=
      (takeUppers_eq_some_iff _ _ _).mpr ⟨a, rfl, ha, haup⟩
    have h10 : takeUppers 10 (b ++ '-' :: [c]) = some ('-' :: [c]) :=
      (takeUppers_eq_some_iff _ _ _).mpr ⟨b, rfl, hb, hbup⟩
    have h1 : takeUppers 1 [c] = some [] :=
      (takeUppers_eq_some_iff _ _ _).mpr ⟨[c], by simp, rfl, by simpa using hcup⟩
    unfold matchCore
    rw [h14]
    simp only [h10, h1]

/-- The full regex accepts the declarative pattern, optionally followed by
one trailing newline (Python `$`). -/
theorem matchInchikeyRegex_iff (l : List Char) :
    matchInchikeyRegex l = true ↔
      (IsInchikeyPattern l ∨ ∃ core, l = core ++ ['\n'] ∧ IsInchikeyPattern core) := by
  unfold matchInchikeyRegex
  rw [Bool.or_eq_true, Bool.and_eq_true, matchCore_iff]
  constructor
  · rintro (h | ⟨hlast, hcore⟩)
    · exact Or.inl h
    · rcases List.eq_nil_or_concat l with rfl | ⟨L, b, rfl⟩
      · simp at hlast
      · right
        have hb : b = '\n' := by
          simpa [List.concat_eq_append, List.getLast?_concat] using hlast
        subst hb
        refine ⟨L, by simp [List.concat_eq_append], ?_⟩
        rw [List.concat_eq_append, List.dropLast_concat] at hcore
        exact (matchCore_iff L).mp hcore
  · rintro (h | ⟨core, rfl, hcore⟩)
    · exact Or.inl h
    · right
      constructor
      · simp [List.getLast?_concat]
      · rw [List.dropLast_concat]
        exact (matchCore_iff core).mpr hcore

/-- C8 (corrected claim, counterexample): the string
`"AAAAAAAAAAAAAAInChIKey=-AAAAAAAAAA-A"` has no leading `"InChIKey="`
prefix and does not match the 14-10-1 pattern as it stands, so the claim
as stated requires `is_valid_inchikey` to return `false`; the code returns
`true`, because `normalize_inchikey` removes the *interior* occurrence of
`"InChIKey="` (Python `str.replace` removes all occurrences, not just a
leading prefix). -/
theorem is_valid_inchikey_interior_tag_cex :
    is_valid_inchikey "AAAAAAAAAAAAAAInChIKey=-AAAAAAAAAA-A" = true ∧
      ¬ IsInchikeyPattern (stripLeadingTag "AAAAAAAAAAAAAAInChIKey=-AAAAAAAAAA-A").data := by
  constructor
  · decide
  · intro hp
    have h := (matchCore_iff
      (stripLeadingTag "AAAAAAAAAAAAAAInChIKey=-AAAAAAAAAA-A").data).mpr hp
    revert h
    decide

/-- C8 (amended): `is_valid_inchikey s` returns `true` exactly when `s`,
after removal of every left-to-right occurrence of `"InChIKey="`, matches
14 uppercase letters, a hyphen, 10 uppercase letters, a hyphen and one
uppercase letter, optionally followed by a single trailing newline
(Python's `$` accepts one final newline); being a total function, it never
raises. -/
theorem is_valid_inchikey_characterization (s : String) :
    is_valid_inchikey s = true ↔
      (IsInchikeyPattern (normalize_inchikey s).data ∨
        ∃ core, (normalize_inchikey s).data = core ++ ['\n'] ∧ IsInchikeyPattern core) :=
  matchInchikeyRegex_iff (normalize_inchikey s).data

/-- A scan that never finds the pattern leaves the input unchanged. -/
theorem replaceAll_eq_self_of_not_contains (pat l : List Char)
    (h : containsPat pat l = false) : replaceAll pat l = l := by
  unfold replaceAll
  induction l with
  | nil => rfl
  | cons c rest ih =>
    unfold containsPat at h
    rw [Bool.or_eq_false_iff] at h
    unfold replaceAllAux
    rw [if_neg (by simp [h.1])]
    exact congrArg (c :: ·) (ih h.2)

/-- C9 (corrected claim, counterexample): `normalize_inchikey` is not
idempotent.  On `"InChIInChIKey=Key="` the first replacement removes the
interior occurrence of `"InChIKey="` and splices the surrounding text into
a brand-new occurrence, which a second normalization removes as well. -/
theorem normalize_inchikey_not_idempotent_cex :
    normalize_inchikey "InChIInChIKey=Key=" = "InChIKey=" ∧
      normalize_inchikey (normalize_inchikey "InChIInChIKey=Key=") ≠
        normalize_inchikey "InChIInChIKey=Key=" := by
  constructor
  · rfl
  · decide

/-- C9 (amended): `normalize_inchikey` is idempotent on every string whose
normalization no longer contains an occurrence of `"InChIKey="`; a second
normalization can differ only by removing occurrences that the first
removal newly spliced together. -/
theorem normalize_inchikey_idempotent_of_no_tag (s : String)
    (h : containsPat inchikeyTag (normalize_inchikey s).data = false) :
    normalize_inchikey (normalize_inchikey s) = normalize_inchikey s := by
  unfold normalize_inchikey
  exact congrArg String.mk (replaceAll_eq_self_of_not_contains _ _ h)

/-- Witness for C9 at `s = "InChIKey=BSYNRYMUTXBXSQ-UHFFFAOYSA-N"`. -/
theorem normalize_inchikey_idempotent_witness :
    containsPat inchikeyTag
        (normalize_inchikey "InChIKey=BSYNRYMUTXBXSQ-UHFFFAOYSA-N").data = false ∧
      normalize_inchikey (normalize_inchikey "InChIKey=BSYNRYMUTXBXSQ-UHFFFAOYSA-N") =
        normalize_inchikey "InChIKey=BSYNRYMUTXBXSQ-UHFFFAOYSA-N" :=
  ⟨by decide, normalize_inchikey_idempotent_of_no_tag _ (by decide)⟩

/-! ## Compound model -/

/-- Keyword construction undoes `ChemontNode.to_dict`. -/
theorem chemont_from_kwargs_to_dict (n : ChemontNode) :
    ChemontNode.from_kwargs n.to_dict = .ok n := rfl

/-- String-list parsing undoes string-list serialization. -/
theorem exceptMapM_asStr_map (l : List String) :
    exceptMapM asStr (l.map Jv.str) = Except.ok l := by
  induction l with
  | nil => rfl
  | cons x xs ih => simp [exceptMapM, ih, asStr]

/-- Keyword construction undoes `ExternalDescriptor.to_dict`. -/
theorem desc_from_kwargs_to_dict (d : ExternalDescriptor) :
    ExternalDescriptor.from_kwargs d.to_dict = .ok d := by
  simp [ExternalDescriptor.from_kwargs, ExternalDescriptor.to_dict, kwargsKeysMatch,
    lookupKey, asStr, asStrList, exceptMapM_asStr_map, List.lookup]

/-- Node-list parsing undoes node-list serialization. -/
theorem exceptMapM_node_map (l : List ChemontNode) :
    exceptMapM ChemontNode.from_kwargs (l.map ChemontNode.to_dict) = Except.ok l := by
  induction l with
  | nil => rfl
  | cons x xs ih => simp [exceptMapM, ih, chemont_from_kwargs_to_dict]

/-- Descriptor-list parsing undoes descriptor-list serialization. -/
theorem exceptMapM_desc_map (l : List ExternalDescriptor) :
    exceptMapM ExternalDescriptor.from_kwargs (l.map ExternalDescriptor.to_dict) =
      Except.ok l := by
  induction l with
  | nil => rfl
  | cons x xs ih => simp [exceptMapM, ih, desc_from_kwargs_to_dict]

/-- Optional-node parsing undoes optional-node serialization. -/
theorem optNode_from_to (o : Option ChemontNode) :
    optNodeFromJv (optNodeToJv o) = .ok o := by
  cases o with
  | none => rfl
  | some n => rfl

/-- C6 (confirmed): for every constructed `Compound c`,
`Compound.from_dict (c.to_dict) = c`, with every field — the optional
`klass` and `subclass` nodes, all ordered sequences, and the nested
`ChemontNode` and `ExternalDescriptor` records — preserved. -/
theorem compound_from_dict_to_dict_roundtrip (c : Compound) :
    Compound.from_dict c.to_dict = .ok c := by
  obtain ⟨sm, ik, kg, sc, kl, sub, im, dp, ap, mf, su, de, ed, an, pc, pl, cv⟩ := c
  simp [Compound.from_dict, Compound.to_dict, lookupKey, asStr, asStrList, asNodeList,
    asDescList, optNode_from_to, exceptMapM_asStr_map, exceptMapM_node_map,
    exceptMapM_desc_map, chemont_from_kwargs_to_dict, List.lookup]

/-- C7 (confirmed): for every dictionary lacking an `"inchikey"` key,
`Compound.from_dict` fails with a `ValueError` before reading any other
key, regardless of the other keys present. -/
theorem compound_from_dict_missing_inchikey_fails (fields : List (String × Jv))
    (h : fields.lookup "inchikey" = none) :
    Compound.from_dict (.obj fields) =
      .error (.valueError "InChIKey is required to create a Compound object") := by
  simp [Compound.from_dict, h]

/-- Witness for C7 at a dictionary holding only a `"smiles"` key. -/
theorem compound_missing_inchikey_witness :
    List.lookup "inchikey" [("smiles", Jv.str "CC(=O)OC1=CC=CC=C1C(O)=O")] = none ∧
      Compound.from_dict (.obj [("smiles", Jv.str "CC(=O)OC1=CC=CC=C1C(O)=O")]) =
        .error (.valueError "InChIKey is required to create a Compound object") :=
  ⟨rfl, compound_from_dict_missing_inchikey_fails _ rfl⟩

/-! ## Classification requester -/

/-- A successful return through the decorated boundary: the body must be a
dict, it is appended to the cache, and a cache-write event is recorded. -/
theorem returnAndPersist_ok (st : CState) (evs : List Ev) (k : String) (body : Jv)
    (v : Jv) (st1 : CState) (evs1 : List Ev)
    (h : returnAndPersist st evs k body = (.ok v, st1, evs1))
    (hc : st.cache.lookup k = none) :
    st1.cache.lookup k = some v ∧ evs1 = evs ++ [.cacheWrite k] := by
  unfold returnAndPersist at h
  cases body with
  | obj fields =>
    have h1 : (Except.ok (Jv.obj fields) : Except CfError Jv) = Except.ok v :=
      congrArg Prod.fst h
    obtain rfl : Jv.obj fields = v := by simpa using h1
    have h2 : ({ st with cache := st.cache ++ [(k, Jv.obj fields)] } : CState) = st1 :=
      congrArg (fun p => p.2.1) h
    have h3 : evs ++ [Ev.cacheWrite k] = evs1 := congrArg (fun p => p.2.2) h
    subst h2 h3
    exact ⟨lookup_append_of_none st.cache k hc, rfl⟩
  | null => exact Except.noConfusion (congrArg Prod.fst h)
  | bool b => exact Except.noConfusion (congrArg Prod.fst h)
  | num n => exact Except.noConfusion (congrArg Prod.fst h)
  | str s => exact Except.noConfusion (congrArg Prod.fst h)
  | arr elems => exact Except.noConfusion (congrArg Prod.fst h)

/-- Every successful raw classification leaves the returned value in the
cache under the requested key, and issues at most one HTTP request. -/
theorem classify_raw_ok_cached (cfg : Config) (transport : String → HttpResult)
    (now : Int) (st : CState) (k : String) (v : Jv) (st1 : CState) (evs : List Ev)
    (h : classify_inchikey_raw cfg transport now st k = (.ok v, st1, evs)) :
    st1.cache.lookup k = some v ∧ countHttp evs ≤ 1 := by
  unfold classify_inchikey_raw at h
  split at h
  case _ w hc =>
    have h1 : (Except.ok w : Except CfError Jv) = Except.ok v := congrArg Prod.fst h
    obtain rfl : w = v := by simpa using h1
    have h2 : st = st1 := congrArg (fun p => p.2.1) h
    have h3 : ([Ev.cacheCheck k true] : List Ev) = evs := congrArg (fun p => p.2.2) h
    subst h2 h3
    exact ⟨hc, by simp [countHttp]⟩
  case _ hc =>
    split at h
    case _ e hb => exact Except.noConfusion (congrArg Prod.fst h)
    case _ url hb =>
      split at h
      case _ code ht => exact Except.noConfusion (congrArg Prod.fst h)
      case _ ht => exact Except.noConfusion (congrArg Prod.fst h)
      case _ body ht =>
        split at h
        case isTrue hf =>
          split at h
          case isTrue hw =>
            obtain ⟨h1, h2⟩ := returnAndPersist_ok _ _ _ _ _ _ _ h hc
            exact ⟨h1, by subst h2; simp [countHttp, missPrefixEvents]⟩
          case isFalse hw =>
            split at h
            case isTrue hi =>
              obtain ⟨h1, h2⟩ := returnAndPersist_ok _ _ _ _ _ _ _ h hc
              exact ⟨h1, by subst h2; simp [countHttp, missPrefixEvents]⟩
            case isFalse hi =>
              split at h
              case isTrue hr => exact Except.noConfusion (congrArg Prod.fst h)
              case isFalse hr =>
                split at h
                case isTrue hra => exact Except.noConfusion (congrArg Prod.fst h)
                case isFalse hra =>
                  obtain ⟨h1, h2⟩ := returnAndPersist_ok _ _ _ _ _ _ _ h hc
                  exact ⟨h1, by subst h2; simp [countHttp, missPrefixEvents]⟩
        case isFalse hf =>
          obtain ⟨h1, h2⟩ := returnAndPersist_ok _ _ _ _ _ _ _ h hc
          exact ⟨h1, by subst h2; simp [countHttp, missPrefixEvents]⟩

/-- C3 (corrected claim, counterexample): with
`behavior_on_empty_classification = "warn"` and an empty JSON body, the
call returns the empty value successfully (it does not fail with an
empty-classification error, contrary to the claim), while emitting the
warning. -/
theorem warn_policy_returns_empty_cex :
    (classify_inchikey_raw ⟨5, "warn", 10⟩ (fun _ => .success (.obj [])) 0 ⟨[], 0⟩
        "BSYNRYMUTXBXSQ-UHFFFAOYSA-N").1 = .ok (.obj []) ∧
      (¬ ∃ e, (classify_inchikey_raw ⟨5, "warn", 10⟩ (fun _ => .success (.obj [])) 0
        ⟨[], 0⟩ "BSYNRYMUTXBXSQ-UHFFFAOYSA-N").1 = .error e) ∧
      Ev.warning "Empty classification for InChIKey: BSYNRYMUTXBXSQ-UHFFFAOYSA-N" ∈
        (classify_inchikey_raw ⟨5, "warn", 10⟩ (fun _ => .success (.obj [])) 0 ⟨[], 0⟩
          "BSYNRYMUTXBXSQ-UHFFFAOYSA-N").2.2 := by
  refine ⟨rfl, ?_, by decide⟩
  rintro ⟨e, he⟩
  exact Except.noConfusion he

/-- C3 (amended): with `behavior_on_empty_classification = "warn"` and an
empty JSON object as response body for a valid uncached InChIKey, the call
emits a warning and returns the empty value as-is (which is also
persisted to the cache); it does not fail with an empty-classification
error. -/
theorem warn_policy_warns_and_returns_empty (cfg : Config)
    (transport : String → HttpResult) (now : Int) (st : CState) (k : String)
    (hp : cfg.behaviorOnEmptyClassification = "warn")
    (hv : is_valid_inchikey (normalize_inchikey k) = true)
    (hc : st.cache.lookup k = none)
    (ht : transport (entityUrl (normalize_inchikey k)) = .success (.obj [])) :
    classify_inchikey_raw cfg transport now st k =
      (.ok (.obj []),
       { cache := st.cache ++ [(k, .obj [])], lastRequestTime := now },
       [.cacheCheck k false,
        .rateLimitSleep (max 0 (cfg.sleep - (now - st.lastRequestTime))),
        .httpGet (entityUrl (normalize_inchikey k)),
        .warning ("Empty classification for InChIKey: " ++ k),
        .cacheWrite k]) := by
  simp [classify_inchikey_raw, hc, build_url, hv, ht, hp, returnAndPersist, Jv.falsy,
    missPrefixEvents]

/-- Witness for C3 at the aspirin InChIKey with an empty-body transport. -/
theorem warn_policy_witness :
    is_valid_inchikey (normalize_inchikey "BSYNRYMUTXBXSQ-UHFFFAOYSA-N") = true ∧
    classify_inchikey_raw ⟨5, "warn", 10⟩ (fun _ => .success (.obj [])) 0 ⟨[], 0⟩
        "BSYNRYMUTXBXSQ-UHFFFAOYSA-N" =
      (.ok (.obj []),
       { cache := [("BSYNRYMUTXBXSQ-UHFFFAOYSA-N", .obj [])], lastRequestTime := 0 },
       [.cacheCheck "BSYNRYMUTXBXSQ-UHFFFAOYSA-N" false,
        .rateLimitSleep 5,
        .httpGet (entityUrl (normalize_inchikey "BSYNRYMUTXBXSQ-UHFFFAOYSA-N")),
        .warning "Empty classification for InChIKey: BSYNRYMUTXBXSQ-UHFFFAOYSA-N",
        .cacheWrite "BSYNRYMUTXBXSQ-UHFFFAOYSA-N"]) :=
  ⟨by decide,
    warn_policy_warns_and_returns_empty ⟨5, "warn", 10⟩ (fun _ => .success (.obj []))
      0 ⟨[], 0⟩ "BSYNRYMUTXBXSQ-UHFFFAOYSA-N" rfl (by decide) rfl rfl⟩

/-- C4 (confirmed): a cached InChIKey is answered from the cache with no
HTTP request and no rate-limit sleep; consequently, after any successful
call, a second call for the same key is a pure cache hit returning
identical data, and the two calls together issue at most one HTTP
request. -/
theorem cache_hit_no_http_and_idempotent_second_call (cfg : Config)
    (transport : String → HttpResult) (now1 now2 : Int) (st : CState) (k : String) :
    (∀ v, st.cache.lookup k = some v →
      classify_inchikey_raw cfg transport now1 st k = (.ok v, st, [.cacheCheck k true]) ∧
        noNetworkEvents [Ev.cacheCheck k true]) ∧
    (∀ v st1 evs1, classify_inchikey_raw cfg transport now1 st k = (.ok v, st1, evs1) →
      classify_inchikey_raw cfg transport now2 st1 k = (.ok v, st1, [.cacheCheck k true]) ∧
        countHttp (evs1 ++ [Ev.cacheCheck k true]) ≤ 1) := by
  constructor
  · intro v hv
    constructor
    · simp [classify_inchikey_raw, hv]
    · intro e he
      simp only [List.mem_singleton] at he
      subst he
      exact ⟨fun u => by simp, fun d => by simp⟩
  · intro v st1 evs1 h
    obtain ⟨h1, h2⟩ := classify_raw_ok_cached _ _ _ _ _ _ _ _ h
    refine ⟨by simp [classify_inchikey_raw, h1], ?_⟩
    have hcount : countHttp (evs1 ++ [Ev.cacheCheck k true]) = countHttp evs1 := by
      simp [countHttp, List.filter_append]
    rw [hcount]
    exact h2

/-- Witness for C4: two successive calls for a cached aspirin InChIKey. -/
theorem cache_hit_witness :
    List.lookup "BSYNRYMUTXBXSQ-UHFFFAOYSA-N"
        [("BSYNRYMUTXBXSQ-UHFFFAOYSA-N", Jv.obj [("smiles", Jv.str "CC")])] =
      some (Jv.obj [("smiles", Jv.str "CC")]) ∧
    classify_inchikey_raw ⟨5, "retry-last", 10⟩ (fun _ => .transportFailure) 1
        ⟨[("BSYNRYMUTXBXSQ-UHFFFAOYSA-N", Jv.obj [("smiles", Jv.str "CC")])], 0⟩
        "BSYNRYMUTXBXSQ-UHFFFAOYSA-N" =
      (.ok (Jv.obj [("smiles", Jv.str "CC")]),
        ⟨[("BSYNRYMUTXBXSQ-UHFFFAOYSA-N", Jv.obj [("smiles", Jv.str "CC")])], 0⟩,
        [.cacheCheck "BSYNRYMUTXBXSQ-UHFFFAOYSA-N" true]) ∧
    classify_inchikey_raw ⟨5, "retry-last", 10⟩ (fun _ => .transportFailure) 2
        ⟨[("BSYNRYMUTXBXSQ-UHFFFAOYSA-N", Jv.obj [("smiles", Jv.str "CC")])], 0⟩
        "BSYNRYMUTXBXSQ-UHFFFAOYSA-N" =
      (.ok (Jv.obj [("smiles", Jv.str "CC")]),
        ⟨[("BSYNRYMUTXBXSQ-UHFFFAOYSA-N", Jv.obj [("smiles", Jv.str "CC")])], 0⟩,
        [.cacheCheck "BSYNRYMUTXBXSQ-UHFFFAOYSA-N" true]) ∧
    countHttp ([Ev.cacheCheck "BSYNRYMUTXBXSQ-UHFFFAOYSA-N" true] ++
        [Ev.cacheCheck "BSYNRYMUTXBXSQ-UHFFFAOYSA-N" true]) ≤ 1 := by
  have h := cache_hit_no_http_and_idempotent_second_call ⟨5, "retry-last", 10⟩
    (fun _ => .transportFailure) 1 2
    ⟨[("BSYNRYMUTXBXSQ-UHFFFAOYSA-N", Jv.obj [("smiles", Jv.str "CC")])], 0⟩
    "BSYNRYMUTXBXSQ-UHFFFAOYSA-N"
  have h1 := (h.1 (Jv.obj [("smiles", Jv.str "CC")]) rfl).1
  have h2 := h.2 (Jv.obj [("smiles", Jv.str "CC")]) _ _ h1
  exact ⟨rfl, h1, h2.1, h2.2⟩

/-- C5 (corrected claim, counterexample): for the malformed identifier
`"not-a-key"` with an empty cache, a configured 5-second interval and one
second elapsed since the last request, the call does fail with
`InvalidInchiKey` — but only after consulting the cache and performing a
rate-limit sleep of 4 seconds, contradicting "before consulting the
result cache and before any rate-limit wait". -/
theorem invalid_key_sleeps_first_cex :
    (classify_inchikey_raw ⟨5, "raise", 10⟩ (fun _ => .transportFailure) 101
        ⟨[], 100⟩ "not-a-key").1 = .error (.invalidInchiKey "not-a-key") ∧
    (classify_inchikey_raw ⟨5, "raise", 10⟩ (fun _ => .transportFailure) 101
        ⟨[], 100⟩ "not-a-key").2.2 =
      [.cacheCheck "not-a-key" false, .rateLimitSleep 4] ∧
    Ev.rateLimitSleep 4 ∈ (classify_inchikey_raw ⟨5, "raise", 10⟩
        (fun _ => .transportFailure) 101 ⟨[], 100⟩ "not-a-key").2.2 ∧
    (0 : Int) < 4 :=
  ⟨rfl, rfl, by decide, by decide⟩

/-- C5 (amended): for every malformed identifier that has no cache entry,
the call fails with `InvalidInchiKey` and issues no HTTP request; however
the cache is consulted first (the `@Cache` decorator runs before the
wrapped body) and the rate-limit sleep and `_last_request_time` update
happen before validation. -/
theorem invalid_key_no_http_after_miss (cfg : Config) (transport : String → HttpResult)
    (now : Int) (st : CState) (k : String)
    (hv : is_valid_inchikey (normalize_inchikey k) = false)
    (hc : st.cache.lookup k = none) :
    classify_inchikey_raw cfg transport now st k =
      (.error (.invalidInchiKey (normalize_inchikey k)),
        { st with lastRequestTime := now }, missPrefixEvents cfg now st k) ∧
    countHttp (missPrefixEvents cfg now st k) = 0 := by
  constructor
  · simp [classify_inchikey_raw, hc, build_url, hv]
  · simp [countHttp, missPrefixEvents]

/-- Witness for C5 at the malformed identifier `"not-a-key"`. -/
theorem invalid_key_witness :
    is_valid_inchikey (normalize_inchikey "not-a-key") = false ∧
    classify_inchikey_raw ⟨5, "raise", 10⟩ (fun _ => .transportFailure) 101
        ⟨[], 100⟩ "not-a-key" =
      (.error (.invalidInchiKey (normalize_inchikey "not-a-key")),
        ⟨[], 101⟩, missPrefixEvents ⟨5, "raise", 10⟩ 101 ⟨[], 100⟩ "not-a-key") ∧
    countHttp (missPrefixEvents ⟨5, "raise", 10⟩ 101 ⟨[], 100⟩ "not-a-key") = 0 := by
  have h := invalid_key_no_http_after_miss ⟨5, "raise", 10⟩ (fun _ => .transportFailure)
    101 ⟨[], 100⟩ "not-a-key" (by decide) rfl
  exact ⟨by decide, h.1, h.2⟩

/-- C10 (confirmed): under policy `"ignore"` with a falsy response body for
a valid uncached InChIKey, `classify_inchikey` never returns a `Compound`;
for the empty dict `{}` the raw layer returns the empty value and the
subsequent `Compound.from_dict` raises the untyped `ValueError` (missing
`"inchikey"`), not an `EmptyInchikeyClassification`. -/
theorem ignore_policy_untyped_value_error (cfg : Config)
    (transport : String → HttpResult) (now : Int) (st : CState) (k : String) (body : Jv)
    (hp : cfg.behaviorOnEmptyClassification = "ignore")
    (hv : is_valid_inchikey (normalize_inchikey k) = true)
    (hc : st.cache.lookup k = none)
    (ht : transport (entityUrl (normalize_inchikey k)) = .success body)
    (hf : body.falsy = true) :
    (∀ c, (classify_inchikey cfg transport now st k).1 ≠ .ok c) ∧
    (body = .obj [] →
      (classify_inchikey_raw cfg transport now st k).1 = .ok (.obj []) ∧
      (classify_inchikey cfg transport now st k).1 =
        .error (.valueError "InChIKey is required to create a Compound object")) := by
  have hb : build_url k = .ok (entityUrl (normalize_inchikey k)) := by
    simp [build_url, hv]
  constructor
  · intro c
    unfold classify_inchikey classify_inchikey_raw
    rw [hc, hb]
    cases body with
    | obj fields =>
      obtain rfl : fields = [] := by simpa [Jv.falsy, List.isEmpty_iff] using hf
      simp [ht, Jv.falsy, hp, returnAndPersist, Compound.from_dict]
    | null => simp [ht, Jv.falsy, hp, returnAndPersist]
    | bool b => simp [ht, Jv.falsy, hf, hp, returnAndPersist]
    | num n => simp [ht, Jv.falsy, hf, hp, returnAndPersist]
    | str s => simp [ht, Jv.falsy, hf, hp, returnAndPersist]
    | arr elems => simp [ht, Jv.falsy, hf, hp, returnAndPersist]
  · rintro rfl
    constructor
    · unfold classify_inchikey_raw
      rw [hc, hb]
      simp [ht, Jv.falsy, hp, returnAndPersist]
    · unfold classify_inchikey classify_inchikey_raw
      rw [hc, hb]
      simp [ht, Jv.falsy, hp, returnAndPersist, Compound.from_dict]

/-- Witness for C10 at the aspirin InChIKey with an empty-dict body. -/
theorem ignore_policy_witness :
    is_valid_inchikey (normalize_inchikey "BSYNRYMUTXBXSQ-UHFFFAOYSA-N") = true ∧
    (Jv.obj []).falsy = true ∧
    (classify_inchikey_raw ⟨5, "ignore", 10⟩ (fun _ => .success (.obj [])) 0 ⟨[], 0⟩
        "BSYNRYMUTXBXSQ-UHFFFAOYSA-N").1 = .ok (.obj []) ∧
    (classify_inchikey ⟨5, "ignore", 10⟩ (fun _ => .success (.obj [])) 0 ⟨[], 0⟩
        "BSYNRYMUTXBXSQ-UHFFFAOYSA-N").1 =
      .error (.valueError "InChIKey is required to create a Compound object") := by
  have h := (ignore_policy_untyped_value_error ⟨5, "ignore", 10⟩
    (fun _ => .success (.obj [])) 0 ⟨[], 0⟩ "BSYNRYMUTXBXSQ-UHFFFAOYSA-N" (.obj [])
    rfl (by decide) rfl rfl rfl).2 rfl
  exact ⟨by decide, rfl, h.1, h.2⟩

/-! ## Batch orchestrator -/

/-- The head of what `dropWhile p` leaves does not satisfy `p`. -/
theorem head?_dropWhile_false {a : Type} {p : a → Bool} {l : List a} {x : a}
    (h : (l.dropWhile p).head? = some x) : p x = false := by
  rw [← List.find?_not_eq_head?_dropWhile] at h
  have h2 := List.find?_some h
  simpa using h2

/-- The first pass with an arbitrary starting `to_retry` accumulator
refines the specification-side description: same yields, the deferred
queue appended behind the accumulator, same propagated error. -/
theorem firstPassAux_acc (classify : ClassifyOracle) (policy : String) :
    ∀ (items : List String) (acc : List (String × Nat)),
    firstPassAux classify policy items acc =
      ((firstPassSpec classify policy items).1,
        match (firstPassSpec classify policy items).2 with
        | .inl q => .inl (acc ++ q)
        | .inr e => .inr e)
  | [], acc => by
    simp [firstPassAux, firstPassSpec, firstPassYields, firstPassDeferred]
  | k :: rest, acc => by
    cases hk : classify 0 k with
    | ok c =>
      have hkeep : fatalOutcome classify policy k = false := by
        simp [fatalOutcome, hk]
      have hspec : firstPassSpec classify policy (k :: rest) =
          (c :: (firstPassSpec classify policy rest).1,
            (firstPassSpec classify policy rest).2) := by
        simp [firstPassSpec, List.takeWhile_cons, List.dropWhile_cons, hkeep,
          firstPassYields, firstPassDeferred, List.filterMap_cons, hk, Except.toOption]
      have haux : firstPassAux classify policy (k :: rest) acc =
          (c :: (firstPassAux classify policy rest acc).1,
            (firstPassAux classify policy rest acc).2) := by
        simp [firstPassAux, hk]
      rw [haux, firstPassAux_acc classify policy rest acc, hspec]
    | error e =>
      by_cases hfat : (isEmptyClassification e && (policy == "retry-last")) = true
      · have hkeep : fatalOutcome classify policy k = false := by
          simp [fatalOutcome, hk, hfat]
        rw [Bool.and_eq_true] at hfat
        have hspec : firstPassSpec classify policy (k :: rest) =
            ((firstPassSpec classify policy rest).1,
              match (firstPassSpec classify policy rest).2 with
              | .inl q => .inl ((k, 1) :: q)
              | .inr e2 => .inr e2) := by
          cases hd : (rest.dropWhile
              (fun x => !(fatalOutcome classify policy x))).head? with
          | none =>
            simp [firstPassSpec, List.takeWhile_cons, List.dropWhile_cons, hkeep,
              firstPassYields, firstPassDeferred, List.filterMap_cons, hk,
              Except.toOption, hd]
          | some k2 =>
            have hfat2 : fatalOutcome classify policy k2 = true := by
              have := head?_dropWhile_false hd
              simpa using this
            cases hk2 : classify 0 k2 with
            | ok c2 =>
              rw [fatalOutcome, hk2] at hfat2
              simp at hfat2
            | error e2 =>
              simp [firstPassSpec, List.takeWhile_cons, List.dropWhile_cons, hkeep,
                firstPassYields, firstPassDeferred, List.filterMap_cons, hk,
                Except.toOption, hd, hk2]
        have haux : firstPassAux classify policy (k :: rest) acc =
            firstPassAux classify policy rest (acc ++ [(k, 1)]) := by
          simp [firstPassAux, hk, hfat.1, hfat.2]
        rw [haux, firstPassAux_acc classify policy rest (acc ++ [(k, 1)]), hspec]
        rcases h2 : (firstPassSpec classify policy rest).2 with q | e2 <;> simp
      · have hfat2 : (isEmptyClassification e && (policy == "retry-last")) = false := by
          revert hfat
          cases (isEmptyClassification e && (policy == "retry-last")) <;> simp
        have hkeep : fatalOutcome classify policy k = true := by
          simp [fatalOutcome, hk, hfat2]
        have hspec : firstPassSpec classify policy (k :: rest) = ([], .inr e) := by
          simp [firstPassSpec, List.takeWhile_cons, List.dropWhile_cons, hkeep,
            firstPassYields, hk]
        have haux : firstPassAux classify policy (k :: rest) acc = ([], .inr e) := by
          cases hie : isEmptyClassification e with
          | false => simp [firstPassAux, hk, hie]
          | true =>
            have hpol : (policy == "retry-last") = false := by
              cases hpp : (policy == "retry-last") with
              | false => rfl
              | true => rw [hie, hpp] at hfat2; exact absurd hfat2 (by simp)
            simp [firstPassAux, hk, hie, hpol]
        rw [haux, hspec]

/-- C1 (confirmed): the first pass of `classify_inchikeys` behaves exactly
as specified — it processes the input in order up to the first fatal
failure, yields every success immediately at its input position, defers
every empty-classification failure under `"retry-last"` as
`(item, attempt = 1)` in input order, and propagates any fatal error
(any failure under another policy, or any non-empty-classification
failure), aborting the rest of the sequence. -/
theorem first_pass_matches_spec (classify : ClassifyOracle) (policy : String)
    (items : List String) :
    firstPassAux classify policy items [] = firstPassSpec classify policy items := by
  rw [firstPassAux_acc]
  rcases h : (firstPassSpec classify policy items) with ⟨ys, q | e⟩ <;> simp [h]

/-- Items requeued by one retry round come from the incoming queue with
their attempt counter incremented, and only while `attempt < attempts`. -/
theorem retryRound_inl_mem (classify : ClassifyOracle) (attempts round : Nat) :
    ∀ (q acc : List (String × Nat)) (ys : List Compound) (q1 : List (String × Nat)),
    retryRound classify attempts round q acc = (ys, .inl q1) →
    ∀ p ∈ q1, p ∈ acc ∨ ∃ ka ∈ q, p = (ka.1, ka.2 + 1) ∧ ka.2 < attempts
  | [], acc, ys, q1 => by
    intro h p hp
    obtain ⟨-, h2⟩ : ([] : List Compound) = ys ∧ (Sum.inl acc :
        List (String × Nat) ⊕ CfError) = .inl q1 := by
      simpa [retryRound, Prod.ext_iff] using h
    obtain rfl : acc = q1 := by simpa using h2
    exact Or.inl hp
  | (k, a) :: rest, acc, ys, q1 => by
    intro h p hp
    cases hk : classify round k with
    | ok c =>
      rcases hr : retryRound classify attempts round rest acc with ⟨ys2, r2⟩
      have h2 : r2 = .inl q1 := by
        have := congrArg (fun pr => pr.2) h
        simpa [retryRound, hk, hr] using this
      subst h2
      rcases retryRound_inl_mem classify attempts round rest acc ys2 q1 hr p hp with
        hacc | ⟨ka, hka, he, hlt⟩
      · exact Or.inl hacc
      · exact Or.inr ⟨ka, List.mem_cons_of_mem _ hka, he, hlt⟩
    | error e =>
      by_cases hie : isEmptyClassification e = true
      · by_cases hlt : a < attempts
        · have h3 : retryRound classify attempts round rest (acc ++ [(k, a + 1)]) =
              (ys, .inl q1) := by
            simpa [retryRound, hk, hie, hlt] using h
          rcases retryRound_inl_mem classify attempts round rest (acc ++ [(k, a + 1)])
              ys q1 h3 p hp with hacc | ⟨ka, hka, he, hlt2⟩
          · rcases List.mem_append.mp hacc with h4 | h4
            · exact Or.inl h4
            · obtain rfl : p = (k, a + 1) := by simpa using h4
              exact Or.inr ⟨(k, a), List.mem_cons_self _ _, rfl, hlt⟩
          · exact Or.inr ⟨ka, List.mem_cons_of_mem _ hka, he, hlt2⟩
        · exfalso
          have h2 := congrArg (fun pr => pr.2) h
          simp [retryRound, hk, hie, hlt] at h2
      · exfalso
        have h2 := congrArg (fun pr => pr.2) h
        simp [retryRound, hk, hie] at h2

/-- Fuel bound for the retry loop: with more fuel than `attempts - attempt`
for every queued item, the loop completes.  In particular, since attempt
counters are non-negative, fuel `attempts + 1` always suffices: the retry
phase always terminates. -/
theorem retryLoopFuel_isSome (classify : ClassifyOracle) (attempts : Nat) :
    ∀ (fuel round : Nat) (q : List (String × Nat)),
    (∀ p ∈ q, attempts - p.2 < fuel) →
    (retryLoopFuel classify attempts fuel round q).isSome := by
  intro fuel
  induction fuel with
  | zero =>
    intro round q hq
    cases q with
    | nil => simp [retryLoopFuel]
    | cons x xs => exact absurd (hq x (List.mem_cons_self _ _)) (by omega)
  | succ fuel ih =>
    intro round q hq
    cases q with
    | nil => simp [retryLoopFuel]
    | cons x xs =>
      rcases hr : retryRound classify attempts round (x :: xs) [] with ⟨ys, r2⟩
      cases r2 with
      | inr e => simp [retryLoopFuel, hr]
      | inl q1 =>
        have hq1 : ∀ p ∈ q1, attempts - p.2 < fuel := by
          intro p hp
          rcases retryRound_inl_mem classify attempts round (x :: xs) [] ys q1 hr p hp
            with h0 | ⟨ka, hka, rfl, hlt⟩
          · cases h0
          · have := hq ka hka
            simp only []
            omega
        have hsome := ih (round + 1) q1 hq1
        cases ho : retryLoopFuel classify attempts fuel (round + 1) q1 with
        | none => rw [ho] at hsome; exact absurd hsome (by simp)
        | some pr => simp [retryLoopFuel, hr, ho]

/-- A queue holding one identifier that empty-classifies in every round is
requeued with `attempt + 1` while `attempt < attempts` and propagates the
empty-classification error once `attempt` reaches `attempts`, yielding
nothing. -/
theorem retryLoop_single_bad (classify : ClassifyOracle) (attempts : Nat) (b : String)
    (hb : ∀ r, classify r b = .error (.emptyInchikeyClassification b)) :
    ∀ (fuel i round : Nat), i ≤ attempts → attempts - i < fuel →
    retryLoopFuel classify attempts fuel round [(b, i)] =
      some ([], some (.emptyInchikeyClassification b)) := by
  intro fuel
  induction fuel with
  | zero =>
    intro i round hi hf
    omega
  | succ fuel ih =>
    intro i round hi hf
    by_cases hlt : i < attempts
    · have hround : retryRound classify attempts round [(b, i)] [] =
          ([], .inl [(b, i + 1)]) := by
        simp [retryRound, hb round, isEmptyClassification, hlt]
      simp only [retryLoopFuel, hround]
      rw [ih (i + 1) (round + 1) hlt (by omega)]
      simp
    · have hround : retryRound classify attempts round [(b, i)] [] =
          ([], .inr (.emptyInchikeyClassification b)) := by
        simp [retryRound, hb round, isEmptyClassification, hlt]
      simp [retryLoopFuel, hround]

/-- In the always-empty / always-ok scenario, the first-pass yields are
exactly the successes of the non-failing identifiers, in input order. -/
theorem yields_scenario (classify : ClassifyOracle) (b : String) (f : String → Compound)
    (hb : classify 0 b = .error (.emptyInchikeyClassification b)) :
    ∀ (xs : List String), (∀ x ∈ xs, x ≠ b → classify 0 x = .ok (f x)) →
      xs.filterMap (fun k => (classify 0 k).toOption) =
        (xs.filter (fun x => x != b)).map f
  | [] => by intro _; simp
  | x :: rest => by
    intro hok
    have hrest := yields_scenario classify b f hb rest
      (fun y hy hne => hok y (List.mem_cons_of_mem _ hy) hne)
    by_cases hx : x = b
    · subst hx
      simp [List.filterMap_cons, hb, Except.toOption]
      exact hrest
    · rw [List.filterMap_cons, hok x (List.mem_cons_self _ _) hx]
      simp [Except.toOption, hx]
      exact hrest

/-- In the always-empty / always-ok scenario, the deferred queue holds the
occurrences of the failing identifier, each with `attempt = 1`. -/
theorem deferred_scenario (classify : ClassifyOracle) (b : String) (f : String → Compound)
    (hb : classify 0 b = .error (.emptyInchikeyClassification b)) :
    ∀ (xs : List String), (∀ x ∈ xs, x ≠ b → classify 0 x = .ok (f x)) →
      firstPassDeferred classify xs =
        (xs.filter (fun x => x == b)).map (fun x => (x, 1))
  | [] => by intro _; simp [firstPassDeferred]
  | x :: rest => by
    intro hok
    have hrest := deferred_scenario classify b f hb rest
      (fun y hy hne => hok y (List.mem_cons_of_mem _ hy) hne)
    by_cases hx : x = b
    · subst hx
      simp only [firstPassDeferred, List.filterMap_cons, hb] at hrest ⊢
      simp [hrest]
    · rw [firstPassDeferred, List.filterMap_cons, hok x (List.mem_cons_self _ _) hx]
      simp only [firstPassDeferred] at hrest
      simp [hx, hrest]

/-- In the always-empty / always-ok scenario no first-pass failure is
fatal under `"retry-last"`. -/
theorem keep_scenario (classify : ClassifyOracle) (b : String) (f : String → Compound)
    (hb : classify 0 b = .error (.emptyInchikeyClassification b))
    (xs : List String) (hok : ∀ x ∈ xs, x ≠ b → classify 0 x = .ok (f x)) :
    ∀ x ∈ xs, (!(fatalOutcome classify "retry-last" x)) = true := by
  intro x hx
  by_cases hxb : x = b
  · subst hxb
    simp [fatalOutcome, hb, isEmptyClassification]
  · simp [fatalOutcome, hok x hx hxb]

/-- A list holding exactly one occurrence of `b` filters down to `[b]`. -/
theorem filter_beq_singleton (b : String) (xs : List String) (h : xs.count b = 1) :
    xs.filter (fun x => x == b) = [b] := by
  have hlen : (xs.filter (fun x => x == b)).length = 1 := by
    rw [← List.countP_eq_length_filter]
    exact h
  have hmem : ∀ x ∈ xs.filter (fun x => x == b), x = b := by
    intro x hx
    have := List.of_mem_filter hx
    simpa using this
  match hfe : xs.filter (fun x => x == b), hlen with
  | [y], _ =>
    have hy : y = b := hmem y (by rw [hfe]; simp)
    rw [hy]

/-- The full scenario: one identifier of the batch empty-classifies in
every round under `"retry-last"`; the generator yields the other
successes in input order and then propagates the empty-classification
error after exhausting the attempts. -/
theorem scenario_main (classify : ClassifyOracle) (cfg : Config) (xs : List String)
    (b : String) (f : String → Compound)
    (hpol : cfg.behaviorOnEmptyClassification = "retry-last")
    (hA : 1 ≤ cfg.classificationAttempts)
    (hcount : xs.count b = 1)
    (hb : ∀ r, classify r b = .error (.emptyInchikeyClassification b))
    (hok : ∀ x ∈ xs, x ≠ b → classify 0 x = .ok (f x)) :
    classify_inchikeys classify cfg xs =
      some ((xs.filter (fun x => x != b)).map f,
        some (.emptyInchikeyClassification b)) := by
  have hkeep := keep_scenario classify b f (hb 0) xs hok
  have htake : xs.takeWhile (fun x => !(fatalOutcome classify "retry-last" x)) = xs :=
    List.takeWhile_eq_self_iff.mpr hkeep
  have hdrop : xs.dropWhile (fun x => !(fatalOutcome classify "retry-last" x)) = [] :=
    List.dropWhile_eq_nil_iff.mpr hkeep
  have hspec : firstPassSpec classify "retry-last" xs =
      ((xs.filter (fun x => x != b)).map f, .inl [(b, 1)]) := by
    unfold firstPassSpec
    simp only [htake, hdrop, List.head?_nil]
    rw [firstPassYields, yields_scenario classify b f (hb 0) xs hok,
      deferred_scenario classify b f (hb 0) xs hok, filter_beq_singleton b xs hcount]
    simp
  have hfirst : firstPassAux classify cfg.behaviorOnEmptyClassification xs [] =
      ((xs.filter (fun x => x != b)).map f, .inl [(b, 1)]) := by
    rw [hpol, firstPassAux_acc, hspec]
    simp
  unfold classify_inchikeys
  rw [hfirst, hpol]
  simp only [beq_self_eq_true, if_true]
  rw [retryLoop_single_bad classify cfg.classificationAttempts b hb
    (cfg.classificationAttempts + 1) 1 1 hA (by omega)]
  simp

/-- Every generator run completes: the first pass is structural and the
retry loop's hard-coded fuel `classification_attempts + 1` is enough. -/
theorem classify_inchikeys_isSome (classify : ClassifyOracle) (cfg : Config)
    (xs : List String) : (classify_inchikeys classify cfg xs).isSome := by
  unfold classify_inchikeys
  rcases h : firstPassAux classify cfg.behaviorOnEmptyClassification xs [] with ⟨ys, q | e⟩
  · by_cases hp : (cfg.behaviorOnEmptyClassification == "retry-last") = true
    · simp only [hp, if_true]
      have hsome := retryLoopFuel_isSome classify cfg.classificationAttempts
        (cfg.classificationAttempts + 1) 1 q (fun p _ => by omega)
      cases ho : retryLoopFuel classify cfg.classificationAttempts
          (cfg.classificationAttempts + 1) 1 q with
      | none => rw [ho] at hsome; exact absurd hsome (by simp)
      | some pr => simp [ho]
    · simp [hp]
  · simp

/-- C2 (confirmed): under `"retry-last"` the retry phase always
terminates — every run of the generator completes, and
`classification_attempts + 1` rounds of fuel suffice for any deferred
queue, since each requeue increments the attempt counter and requires
`attempt < classification_attempts`; and for a batch in which one
identifier empty-classifies in every round while the others succeed, the
generator yields the other successes in input order and then propagates
the `EmptyInchikeyClassification` error once the failing item's attempt
counter reaches `classification_attempts` — the item is neither dropped
nor retried forever. -/
theorem retry_phase_terminates_and_bounded :
    (∀ (classify : ClassifyOracle) (cfg : Config) (xs : List String),
      (classify_inchikeys classify cfg xs).isSome) ∧
    (∀ (classify : ClassifyOracle) (attempts round : Nat) (q : List (String × Nat)),
      (retryLoopFuel classify attempts (attempts + 1) round q).isSome) ∧
    (∀ (classify : ClassifyOracle) (cfg : Config) (xs : List String) (b : String)
        (f : String → Compound),
      cfg.behaviorOnEmptyClassification = "retry-last" →
      1 ≤ cfg.classificationAttempts →
      xs.count b = 1 →
      (∀ r, classify r b = .error (.emptyInchikeyClassification b)) →
      (∀ x ∈ xs, x ≠ b → classify 0 x = .ok (f x)) →
      classify_inchikeys classify cfg xs =
        some ((xs.filter (fun x => x != b)).map f,
          some (.emptyInchikeyClassification b))) :=
  ⟨classify_inchikeys_isSome,
   fun classify attempts round q =>
     retryLoopFuel_isSome classify attempts (attempts + 1) round q (fun p _ => by omega),
   scenario_main⟩

/-- Witness for C2: a three-identifier batch whose middle identifier
empty-classifies in every round, with 2 classification attempts. -/
theorem retry_phase_witness :
    (["AAAAAAAAAAAAAA-AAAAAAAAAA-A", "BBBBBBBBBBBBBB-BBBBBBBBBB-B",
        "CCCCCCCCCCCCCC-CCCCCCCCCC-C"].count "BBBBBBBBBBBBBB-BBBBBBBBBB-B") = 1 ∧
    (retryLoopFuel sampleOracle 2 3 1 [("BBBBBBBBBBBBBB-BBBBBBBBBB-B", 1)]).isSome ∧
    classify_inchikeys sampleOracle ⟨5, "retry-last", 2⟩
        ["AAAAAAAAAAAAAA-AAAAAAAAAA-A", "BBBBBBBBBBBBBB-BBBBBBBBBB-B",
         "CCCCCCCCCCCCCC-CCCCCCCCCC-C"] =
      some ([sampleCompound "AAAAAAAAAAAAAA-AAAAAAAAAA-A",
             sampleCompound "CCCCCCCCCCCCCC-CCCCCCCCCC-C"],
        some (.emptyInchikeyClassification "BBBBBBBBBBBBBB-BBBBBBBBBB-B")) := by
  refine ⟨by decide, retry_phase_terminates_and_bounded.2.1 sampleOracle 2 1 _, ?_⟩
  have h := retry_phase_terminates_and_bounded.2.2 sampleOracle ⟨5, "retry-last", 2⟩
    ["AAAAAAAAAAAAAA-AAAAAAAAAA-A", "BBBBBBBBBBBBBB-BBBBBBBBBB-B",
     "CCCCCCCCCCCCCC-CCCCCCCCCC-C"] "BBBBBBBBBBBBBB-BBBBBBBBBB-B" sampleCompound
    rfl (by decide) (by decide)
    (fun r => rfl)
    (by
      intro x hx hne
      simp only [List.mem_cons, List.mem_singleton] at hx
      rcases hx with rfl | rfl | hx
      · rfl
      · exact absurd rfl hne
      · rcases hx with rfl | hx
        · rfl
        · cases hx)
  exact h.trans (by rfl)

end Classyfire
